import Mathlib

/-!
Shallow embedding of the Weather API client in
`src/examples/python/weather_client.py` (classes `WeatherClient` and
`WeatherMonitor`), together with theorems settling the specification
claims about it.

Modelling conventions:
* Python `str` is modelled as `List Char` (`PyStr`); `bytes` as `List Nat`
  (each element a byte value).
* Python numbers handled by the client (timestamps from `time.time()`,
  threshold values, observed weather values, latitudes/longitudes) are
  modelled as `Int`.  Only ordered-field comparisons and subtraction of
  these numbers occur in the code, and every claim is order-theoretic, so
  the integers faithfully represent the comparisons the code performs.
* Python `dict` is modelled as an insertion-ordered association list:
  assignment updates an existing key in place and appends a new key at the
  end, exactly like a CPython dict.
* Exceptions are modelled with `Except`; `PyErr` distinguishes
  `WeatherAPIError` (including its subclasses, whose `str(e)` is the
  carried message) from `ValueError`, because `except WeatherAPIError`
  clauses catch the former and not the latter.
* The HTTP layer (`requests`) is modelled as an oracle
  `net : Request → Except PyErr α`: a pure function from the request a
  method would issue to the response or error the library would produce.
  An operation that raises before calling `self._make_request` is one
  whose result does not depend on the oracle.
* `hashlib.sha256`, `hashlib.md5` and `hmac` are implemented concretely
  (validated against the standard test vectors below), and `str.encode()`
  is the UTF-8 encoding.  `hmac.compare_digest` on `str` operands is
  modelled with its CPython ASCII precondition: non-ASCII operands raise
  `TypeError` instead of comparing.
-/

namespace WeatherSpec

/-- Python strings as lists of characters. -/
abbrev PyStr := List Char

/-- Conversion from a Lean string literal to the `PyStr` model. -/
def pystr (s : String) : PyStr := s.data

/-- Exceptions raised by the client code.  `weatherAPIError` stands for
`WeatherAPIError` and all of its subclasses (`AuthenticationError`,
`RateLimitError`); `valueError` stands for `ValueError`; `typeError`
stands for `TypeError` (raised by `hmac.compare_digest` on non-ASCII
string operands).  The payload is the message, i.e. `str(e)`. -/
inductive PyErr where
  | weatherAPIError (msg : PyStr)
  | valueError (msg : PyStr)
  | typeError (msg : PyStr)
deriving DecidableEq

/-- Python dict assignment `d[k] = v`: replaces the value of an existing
key in place, otherwise appends the new binding at the end (CPython
insertion order). -/
def dictInsert {κ α : Type} [DecidableEq κ] (k : κ) (v : α) :
    List (κ × α) → List (κ × α)
  | [] => [(k, v)]
  | (k', v') :: t => if k' = k then (k, v) :: t else (k', v') :: dictInsert k v t

/-- Python dict lookup `d[k]` / `d.get(k)` on the association-list model. -/
def lookupKV {κ α : Type} [DecidableEq κ] (k : κ) : List (κ × α) → Option α
  | [] => none
  | (k', v') :: t => if k' = k then some v' else lookupKV k t

theorem lookupKV_dictInsert_self {κ α : Type} [DecidableEq κ] (k : κ) (v : α)
    (l : List (κ × α)) : lookupKV k (dictInsert k v l) = some v := by
  induction l with
  | nil => simp [dictInsert, lookupKV]
  | cons hd t ih =>
      obtain ⟨k', v'⟩ := hd
      by_cases h : k' = k
      · simp [dictInsert, lookupKV, h]
      · simp [dictInsert, lookupKV, h, ih]

theorem lookupKV_dictInsert_ne {κ α : Type} [DecidableEq κ] {k k' : κ} (v : α)
    (l : List (κ × α)) (h : k' ≠ k) :
    lookupKV k' (dictInsert k v l) = lookupKV k' l := by
  have hks : ¬k = k' := fun hh => h hh.symm
  induction l with
  | nil => simp [dictInsert, lookupKV, hks]
  | cons hd t ih =>
      obtain ⟨k₀, v₀⟩ := hd
      by_cases hk : k₀ = k
      · subst hk
        simp [dictInsert, lookupKV, hks]
      · by_cases hk' : k₀ = k'
        · subst hk'
          simp [dictInsert, lookupKV, hk, h]
        · simp [dictInsert, lookupKV, hk, hk', ih]

theorem lookupKV_filter {κ α : Type} [DecidableEq κ] {k : κ} {v : α}
    {l : List (κ × α)} (p : κ × α → Bool) (h : lookupKV k l = some v)
    (hp : p (k, v) = true) : lookupKV k (l.filter p) = some v := by
  induction l with
  | nil => simp [lookupKV] at h
  | cons hd t ih =>
      obtain ⟨k₀, v₀⟩ := hd
      by_cases hk : k₀ = k
      · subst hk
        have hv : v₀ = v := by simpa [lookupKV] using h
        subst hv
        simp [List.filter_cons, hp, lookupKV]
      · simp only [lookupKV, if_neg hk] at h
        rcases hpc : p (k₀, v₀) with _ | _
        · simp [List.filter_cons, hpc, ih h]
        · simp [List.filter_cons, hpc, lookupKV, hk, ih h]

/-! ### Cache (`WeatherClient._cache`)

`self._cache : Dict[str, tuple]` maps a cache key to the pair
`(data, timestamp)`; `self._cache_ttl = 300`. -/

/-- `self._cache_ttl = 300  # 5 minutes` -/
def cacheTtl : Int := 300

/-- The cache state: key ↦ (data, timestamp). -/
abbrev Cache (α : Type) := List (PyStr × α × Int)

/-- `WeatherClient._get_from_cache` (lines 146–153): return the stored
data if the entry exists and `time.time() - timestamp < self._cache_ttl`,
else `None`.  `now` is the value of `time.time()` at the call. -/
def getFromCache {α : Type} (cache : Cache α) (cacheKey : PyStr) (now : Int) :
    Option α :=
  match lookupKV cacheKey cache with
  | some (data, timestamp) =>
      if now - timestamp < cacheTtl then some data else none
  | none => none

/-- `WeatherClient._save_to_cache` (lines 155–164): store
`(data, time.time())` under the key, then rebuild the dict keeping only
entries with `current_time - v[1] < self._cache_ttl`.  The two
`time.time()` reads happen back to back and are modelled as the single
instant `now`. -/
def saveToCache {α : Type} (cache : Cache α) (cacheKey : PyStr) (data : α)
    (now : Int) : Cache α :=
  (dictInsert cacheKey (data, now) cache).filter
    (fun kv => now - kv.2.2 < cacheTtl)

theorem lookupKV_saveToCache_self {α : Type} (c : Cache α) (k : PyStr) (v : α)
    (now : Int) : lookupKV k (saveToCache c k v now) = some (v, now) := by
  unfold saveToCache
  apply lookupKV_filter _ (lookupKV_dictInsert_self k (v, now) c)
  simp [cacheTtl]

/-- C5: a cache get returns the stored value exactly when the entry's age
(`now - created_at`) is strictly less than the ttl (300 s): a value stored
at `t0` is returned unchanged by a get at any time `t` with
`t - t0 < ttl`, a get with `t - t0 ≥ ttl` is a miss, and in general a get
only ever returns a value that is present with age strictly less than the
ttl — a stale entry is never returned. -/
theorem c5_cache_get_ttl {α : Type} (c : Cache α) (k : PyStr) (v : α)
    (t0 t : Int) :
    (t - t0 < cacheTtl → getFromCache (saveToCache c k v t0) k t = some v) ∧
    (cacheTtl ≤ t - t0 → getFromCache (saveToCache c k v t0) k t = none) ∧
    (∀ (c' : Cache α) (k' : PyStr) (t' : Int) (v' : α),
      getFromCache c' k' t' = some v' →
      ∃ ts : Int, lookupKV k' c' = some (v', ts) ∧ t' - ts < cacheTtl) := by
  refine ⟨?_, ?_, ?_⟩
  · intro h
    unfold getFromCache
    rw [lookupKV_saveToCache_self]
    simp [h]
  · intro h
    unfold getFromCache
    rw [lookupKV_saveToCache_self]
    simp only [if_neg (not_lt.mpr h)]
  · intro c' k' t' v' h
    unfold getFromCache at h
    rcases hl : lookupKV k' c' with _ | ⟨d, ts⟩
    · rw [hl] at h
      simp at h
    · rw [hl] at h
      by_cases hf : t' - ts < cacheTtl
      · simp only [hf, if_true] at h
        obtain rfl : d = v' := by simpa using h
        exact ⟨ts, rfl, hf⟩
      · simp [hf] at h

/-- Witness for C5 at a concrete input: a value stored at time 0 is hit at
time 299 and missed at time 300 (ttl = 300). -/
theorem c5_cache_get_ttl_witness :
    getFromCache (saveToCache ([] : Cache Nat) (pystr "k") 7 0) (pystr "k")
        299 = some 7 ∧
    getFromCache (saveToCache ([] : Cache Nat) (pystr "k") 7 0) (pystr "k")
        300 = none :=
  ⟨(c5_cache_get_ttl [] (pystr "k") 7 0 299).1 (by decide),
   (c5_cache_get_ttl [] (pystr "k") 7 0 300).2.1 (by decide)⟩

/-- C7: immediately after `_save_to_cache(key, value)` the cache contains
`value` under `key` with the current timestamp, every entry remaining in
the cache has age strictly below the ttl (the write-time sweep evicted all
entries with age ≥ ttl), and every still-fresh pre-existing entry under a
different key is retained unchanged. -/
theorem c7_put_sweeps_stale {α : Type} (c : Cache α) (k : PyStr) (v : α)
    (now : Int) :
    lookupKV k (saveToCache c k v now) = some (v, now) ∧
    (∀ e ∈ saveToCache c k v now, now - e.2.2 < cacheTtl) ∧
    (∀ k' : PyStr, k' ≠ k → ∀ (d : α) (ts : Int),
      lookupKV k' c = some (d, ts) → now - ts < cacheTtl →
      lookupKV k' (saveToCache c k v now) = some (d, ts)) := by
  refine ⟨lookupKV_saveToCache_self c k v now, ?_, ?_⟩
  · intro e he
    unfold saveToCache at he
    rw [List.mem_filter] at he
    simpa using he.2
  · intro k' hk d ts hl hfresh
    unfold saveToCache
    have hl' : lookupKV k' (dictInsert k (v, now) c) = some (d, ts) := by
      rw [lookupKV_dictInsert_ne _ _ hk]
      exact hl
    apply lookupKV_filter _ hl'
    simpa using hfresh

/-- Witness for C7 at a concrete input: after a put at time 100 into a
cache holding a fresh entry under another key, the new entry carries
timestamp 100, a sampled remaining entry is fresh, and the old fresh entry
survives the sweep. -/
theorem c7_put_sweeps_stale_witness :
    lookupKV (pystr "k") (saveToCache [(pystr "a", (5, 0))] (pystr "k")
        (7 : Nat) 100) = some (7, 100) ∧
    lookupKV (pystr "a") (saveToCache [(pystr "a", (5, 0))] (pystr "k")
        (7 : Nat) 100) = some (5, 0) :=
  ⟨(c7_put_sweeps_stale [(pystr "a", (5, 0))] (pystr "k") 7 100).1,
   (c7_put_sweeps_stale [(pystr "a", (5, 0))] (pystr "k") 7 100).2.2
     (pystr "a") (by decide) 5 0 (by decide) (by decide)⟩

/-! ### Domain operations of `WeatherClient`

Each operation validates its inputs, assembles the query parameters and
delegates to `self._make_request`.  The pure part up to the
`_make_request` call is modelled as a function returning
`Except PyErr Request`: `Except.error e` means the operation raised `e`
before any network request was made, `Except.ok req` means it proceeds to
issue `req` over the network. -/

/-- `WeatherUnits` enumeration. -/
inductive WeatherUnits where
  | metric
  | imperial
  | kelvin
deriving DecidableEq

/-- `WeatherUnits.value`. -/
def unitsValue : WeatherUnits → PyStr
  | .metric => pystr "metric"
  | .imperial => pystr "imperial"
  | .kelvin => pystr "kelvin"

/-- `WeatherSeverity` enumeration. -/
inductive WeatherSeverity where
  | minor
  | moderate
  | severe
  | extreme
deriving DecidableEq

/-- `WeatherSeverity.value`. -/
def severityValue : WeatherSeverity → PyStr
  | .minor => pystr "minor"
  | .moderate => pystr "moderate"
  | .severe => pystr "severe"
  | .extreme => pystr "extreme"

/-- Values placed into the query-parameter dict: strings, numbers
(Python ints and floats, modelled as `Int`) and `None`. -/
inductive Val where
  | vStr (s : PyStr)
  | vInt (n : Int)
  | vNone
deriving DecidableEq

/-- Python truthiness of an `Optional[str]` argument: `None` and the
empty string are falsy. -/
def truthyStr : Option PyStr → Bool
  | none => false
  | some s => !s.isEmpty

/-- Python truthiness of an `Optional[float]` argument: `None` and `0.0`
are falsy. -/
def truthyNum : Option Int → Bool
  | none => false
  | some x => x != 0

/-- A `Val` for an `Optional[float]` stored into a params dict
(`params['lat'] = lat` stores `None` as is). -/
def valOfNum : Option Int → Val
  | none => Val.vNone
  | some x => Val.vInt x

/-- The HTTP request an operation hands to `_make_request`. -/
structure Request where
  method : PyStr
  endpoint : PyStr
  params : List (PyStr × Val)
deriving DecidableEq

/-- Shared tail of the four weather operations:
`if location: params['city'] = location else: params['lat'] = lat;
params['lon'] = lon`. -/
def addLocationParams (location : Option PyStr) (lat lon : Option Int)
    (params : List (PyStr × Val)) : List (PyStr × Val) :=
  if truthyStr location then
    dictInsert (pystr "city") (Val.vStr (location.getD [])) params
  else
    dictInsert (pystr "lon") (valOfNum lon)
      (dictInsert (pystr "lat") (valOfNum lat) params)

/-- `WeatherClient.get_current_weather` (lines 259–299) up to its
`_make_request` call.  The guard is
`if not location and not (lat and lon): raise ValueError(...)`, using
Python truthiness of the arguments. -/
def currentWeatherRequest (location : Option PyStr) (lat lon : Option Int)
    (units : WeatherUnits) (lang : PyStr) : Except PyErr Request :=
  if !truthyStr location && !(truthyNum lat && truthyNum lon) then
    Except.error (PyErr.valueError (pystr "Either location or coordinates required"))
  else
    let params := [(pystr "units", Val.vStr (unitsValue units)),
                   (pystr "lang", Val.vStr lang)]
    Except.ok ⟨pystr "GET", pystr "/weather/current",
               addLocationParams location lat lon params⟩

/-- `WeatherClient.get_forecast` (lines 301–336) up to its
`_make_request` call.  The only guard is `if not 1 <= days <= 7`; no
location/coordinates validation is performed. -/
def forecastRequest (location : Option PyStr) (lat lon : Option Int)
    (days : Int) (units : WeatherUnits) : Except PyErr Request :=
  if !(1 ≤ days ∧ days ≤ 7 : Bool) then
    Except.error (PyErr.valueError (pystr "Days must be between 1 and 7"))
  else
    let params := [(pystr "days", Val.vInt days),
                   (pystr "units", Val.vStr (unitsValue units))]
    Except.ok ⟨pystr "GET", pystr "/weather/forecast",
               addLocationParams location lat lon params⟩

/-- `WeatherClient.get_historical_weather` (lines 338–375) up to its
`_make_request` call, for a string-typed `date` argument (the
`datetime` branch only reformats the date and is not modelled).  No
validation is performed. -/
def historicalRequest (date : PyStr) (location : Option PyStr)
    (lat lon : Option Int) (units : WeatherUnits) : Except PyErr Request :=
  let params := [(pystr "date", Val.vStr date),
                 (pystr "units", Val.vStr (unitsValue units))]
  Except.ok ⟨pystr "GET", pystr "/weather/historical",
             addLocationParams location lat lon params⟩

/-- `WeatherClient.get_alerts` (lines 377–407) up to its `_make_request`
call.  No validation is performed. -/
def alertsRequest (location : Option PyStr) (lat lon : Option Int)
    (severity : Option WeatherSeverity) : Except PyErr Request :=
  let params := addLocationParams location lat lon []
  let params :=
    match severity with
    | some s => dictInsert (pystr "severity") (Val.vStr (severityValue s)) params
    | none => params
  Except.ok ⟨pystr "GET", pystr "/weather/alerts", params⟩

/-- Whether an `Except` computation completed without raising. -/
def exceptOk {ε α : Type} : Except ε α → Bool
  | Except.ok _ => true
  | Except.error _ => false

/-- C1 counterexample: `get_forecast` called with neither a location nor
coordinates does not raise; it proceeds to issue a network request with
`lat`/`lon` set to `None`, refuting the claim that all four operations
fail with `ValueError` in this situation. -/
theorem c1_counterexample :
    forecastRequest none none none 5 WeatherUnits.metric =
      Except.ok ⟨pystr "GET", pystr "/weather/forecast",
        [(pystr "days", Val.vInt 5),
         (pystr "units", Val.vStr (pystr "metric")),
         (pystr "lat", Val.vNone),
         (pystr "lon", Val.vNone)]⟩ := by
  rfl

/-- C1 amended: only `get_current_weather` enforces the
location-or-coordinates requirement, raising `ValueError` before any
network request when neither is supplied; `get_forecast`,
`get_historical_weather` and `get_alerts` perform no such validation and
proceed to issue the network request (with `None` coordinates). -/
theorem c1_only_current_validates (units : WeatherUnits) (lang : PyStr)
    (days : Int) (hd1 : 1 ≤ days) (hd7 : days ≤ 7) (date : PyStr)
    (sev : Option WeatherSeverity) :
    currentWeatherRequest none none none units lang =
      Except.error (PyErr.valueError
        (pystr "Either location or coordinates required")) ∧
    exceptOk (forecastRequest none none none days units) = true ∧
    exceptOk (historicalRequest date none none none units) = true ∧
    exceptOk (alertsRequest none none none sev) = true := by
  refine ⟨rfl, ?_, rfl, by cases sev <;> rfl⟩
  simp [forecastRequest, exceptOk, hd1, hd7]

/-- Witness for C1 (amended) at concrete inputs. -/
theorem c1_only_current_validates_witness :
    currentWeatherRequest none none none WeatherUnits.metric (pystr "en") =
      Except.error (PyErr.valueError
        (pystr "Either location or coordinates required")) ∧
    exceptOk (forecastRequest none none none 5 WeatherUnits.metric) = true :=
  ⟨(c1_only_current_validates WeatherUnits.metric (pystr "en") 5 (by decide)
      (by decide) (pystr "2024-01-15") none).1,
   (c1_only_current_validates WeatherUnits.metric (pystr "en") 5 (by decide)
      (by decide) (pystr "2024-01-15") none).2.1⟩

/-- C9: because the guard in `get_current_weather` tests numeric
truthiness (`lat and lon`) rather than presence, a call with no named
location where the supplied latitude or longitude equals 0 (a valid
coordinate) raises `ValueError 'Either location or coordinates required'`
before any network request. -/
theorem c9_zero_coordinate_rejected (lat lon : Option Int)
    (units : WeatherUnits) (lang : PyStr)
    (h : lat = some 0 ∨ lon = some 0) :
    currentWeatherRequest none lat lon units lang =
      Except.error (PyErr.valueError
        (pystr "Either location or coordinates required")) := by
  rcases h with h | h <;> subst h <;>
    simp [currentWeatherRequest, truthyStr, truthyNum]

/-- Witness for C9 at the concrete input lat = 0, lon = 0. -/
theorem c9_zero_coordinate_rejected_witness :
    currentWeatherRequest none (some 0) (some 0) WeatherUnits.metric
        (pystr "en") =
      Except.error (PyErr.valueError
        (pystr "Either location or coordinates required")) :=
  c9_zero_coordinate_rejected (some 0) (some 0) WeatherUnits.metric
    (pystr "en") (Or.inl rfl)

/-! ### `WeatherClient.batch_weather_request` (lines 516–546)

The per-location call is `get_current_weather(location)` or
`get_forecast(location)` (all other arguments defaulted); its `try` block
catches `WeatherAPIError` only, recording `{"error": str(e)}` for the
location, so any other exception propagates and aborts the batch. -/

/-- `WeatherClient.get_current_weather` composed with the network oracle. -/
def getCurrentWeather {α : Type} (net : Request → Except PyErr α)
    (location : Option PyStr) (lat lon : Option Int) (units : WeatherUnits)
    (lang : PyStr) : Except PyErr α :=
  (currentWeatherRequest location lat lon units lang).bind net

/-- `WeatherClient.get_forecast` composed with the network oracle. -/
def getForecast {α : Type} (net : Request → Except PyErr α)
    (location : Option PyStr) (lat lon : Option Int) (days : Int)
    (units : WeatherUnits) : Except PyErr α :=
  (forecastRequest location lat lon days units).bind net

/-- One entry of the `results` dict returned by `batch_weather_request`:
either the location's weather data or the inline error marker
`{"error": str(e)}`. -/
inductive BatchResult (α : Type) where
  | data (d : α)
  | errorMarker (msg : PyStr)
deriving DecidableEq

/-- The body of the `for location in locations` loop before its `except`
clause: dispatch on `request_type`, with defaulted arguments as in the
source; an unknown type raises `ValueError(f"Invalid request type: …")`
inside the `try` block. -/
def batchTryOne {α : Type} (net : Request → Except PyErr α)
    (requestType : PyStr) (location : PyStr) : Except PyErr α :=
  if requestType = pystr "current" then
    getCurrentWeather net (some location) none none WeatherUnits.metric
      (pystr "en")
  else if requestType = pystr "forecast" then
    getForecast net (some location) none none 5 WeatherUnits.metric
  else
    Except.error (PyErr.valueError (pystr "Invalid request type: " ++ requestType))

/-- The `for location in locations` loop of `batch_weather_request`,
accumulating the `results` dict; `except WeatherAPIError` stores the
marker, any other exception propagates. -/
def batchGo {α : Type} (net : Request → Except PyErr α) (requestType : PyStr) :
    List PyStr → List (PyStr × BatchResult α) →
    Except PyErr (List (PyStr × BatchResult α))
  | [], results => Except.ok results
  | location :: rest, results =>
      match batchTryOne net requestType location with
      | Except.ok d =>
          batchGo net requestType rest
            (dictInsert location (BatchResult.data d) results)
      | Except.error (PyErr.weatherAPIError m) =>
          batchGo net requestType rest
            (dictInsert location (BatchResult.errorMarker m) results)
      | Except.error e => Except.error e

/-- `WeatherClient.batch_weather_request`. -/
def batchWeatherRequest {α : Type} (net : Request → Except PyErr α)
    (locations : List PyStr) (requestType : PyStr) :
    Except PyErr (List (PyStr × BatchResult α)) :=
  batchGo net requestType locations []

/-- Whether a per-location call either succeeded or failed with
`WeatherAPIError` (the exception class the batch loop catches). -/
def okOrApi {α : Type} : Except PyErr α → Bool
  | Except.ok _ => true
  | Except.error (PyErr.weatherAPIError _) => true
  | Except.error (PyErr.valueError _) => false
  | Except.error (PyErr.typeError _) => false

/-- The dict entry the batch loop records for a per-location outcome. -/
def batchEntry {α : Type} : Except PyErr α → BatchResult α
  | Except.ok d => BatchResult.data d
  | Except.error (PyErr.weatherAPIError m) => BatchResult.errorMarker m
  | Except.error (PyErr.valueError m) => BatchResult.errorMarker m
  | Except.error (PyErr.typeError m) => BatchResult.errorMarker m

theorem batchGo_ok {α : Type} (net : Request → Except PyErr α) (rt : PyStr)
    (locs : List PyStr) (acc : List (PyStr × BatchResult α))
    (h : ∀ loc ∈ locs, okOrApi (batchTryOne net rt loc) = true) :
    ∃ m, batchGo net rt locs acc = Except.ok m ∧
      (∀ loc ∈ locs, lookupKV loc m = some (batchEntry (batchTryOne net rt loc))) ∧
      (∀ k : PyStr, k ∉ locs → lookupKV k m = lookupKV k acc) := by
  induction locs generalizing acc with
  | nil => exact ⟨acc, rfl, by simp, fun k _ => rfl⟩
  | cons loc rest ih =>
      have hloc := h loc (List.mem_cons_self loc rest)
      have hrest : ∀ l ∈ rest, okOrApi (batchTryOne net rt l) = true :=
        fun l hl => h l (List.mem_cons_of_mem loc hl)
      have key : ∀ b : BatchResult α, b = batchEntry (batchTryOne net rt loc) →
          (batchGo net rt (loc :: rest) acc =
            batchGo net rt rest (dictInsert loc b acc)) →
          ∃ m, batchGo net rt (loc :: rest) acc = Except.ok m ∧
            (∀ l ∈ loc :: rest,
              lookupKV l m = some (batchEntry (batchTryOne net rt l))) ∧
            (∀ k : PyStr, k ∉ loc :: rest → lookupKV k m = lookupKV k acc) := by
        intro b hb hstep
        obtain ⟨m', hm', hmem, hout⟩ := ih (dictInsert loc b acc) hrest
        refine ⟨m', by rw [hstep]; exact hm', ?_, ?_⟩
        · intro l hl
          by_cases hlr : l ∈ rest
          · exact hmem l hlr
          · obtain rfl : l = loc := by
              rcases List.mem_cons.mp hl with h1 | h1
              · exact h1
              · exact absurd h1 hlr
            rw [hout l hlr, hb, lookupKV_dictInsert_self]
        · intro k hk
          have hkr : k ∉ rest := fun hm => hk (List.mem_cons_of_mem loc hm)
          have hkl : k ≠ loc := by
            intro hke
            subst hke
            exact hk (List.mem_cons_self k rest)
          rw [hout k hkr, lookupKV_dictInsert_ne _ _ hkl]
      rcases hc : batchTryOne net rt loc with e | d
      · rcases e with m | m | m
        · exact key (BatchResult.errorMarker m) (by rw [hc]; rfl)
            (by rw [batchGo, hc])
        · rw [hc] at hloc
          simp [okOrApi] at hloc
        · rw [hc] at hloc
          simp [okOrApi] at hloc
      · exact key (BatchResult.data d) (by rw [hc]; rfl) (by rw [batchGo, hc])

/-- C4: if every per-location call either succeeds or fails with a
client-level `WeatherAPIError`, then `batch_weather_request` returns
without raising a dict containing, for every input location, its weather
data on success or the inline error marker on failure — one location's
failure neither aborts the batch nor disturbs other locations' results. -/
theorem c4_batch_failure_isolated {α : Type} (net : Request → Except PyErr α)
    (locs : List PyStr) (rt : PyStr)
    (_hrt : rt = pystr "current" ∨ rt = pystr "forecast")
    (h : ∀ loc ∈ locs, okOrApi (batchTryOne net rt loc) = true) :
    ∃ m, batchWeatherRequest net locs rt = Except.ok m ∧
      ∀ loc ∈ locs,
        (∀ d, batchTryOne net rt loc = Except.ok d →
          lookupKV loc m = some (BatchResult.data d)) ∧
        (∀ msg, batchTryOne net rt loc = Except.error (PyErr.weatherAPIError msg) →
          lookupKV loc m = some (BatchResult.errorMarker msg)) := by
  obtain ⟨m, hm, hmem, _⟩ := batchGo_ok net rt locs [] h
  refine ⟨m, hm, fun loc hl => ⟨?_, ?_⟩⟩
  · intro d hd
    rw [hmem loc hl, hd]
    rfl
  · intro msg hmsg
    rw [hmem loc hl, hmsg]
    rfl

/-- Concrete oracle for the C4 witness: the current-weather request for
city `B` fails with a `WeatherAPIError`, everything else succeeds. -/
def netC4 : Request → Except PyErr Nat := fun req =>
  if lookupKV (pystr "city") req.params = some (Val.vStr (pystr "B")) then
    Except.error (PyErr.weatherAPIError (pystr "boom"))
  else
    Except.ok 42

/-- Witness for C4 at a concrete input: locations `[A, B]` where `B`'s
underlying call fails with `WeatherAPIError`; the batch returns a result
for `A` with data and for `B` with the error marker, without raising. -/
theorem c4_batch_failure_isolated_witness :
    ∃ m, batchWeatherRequest netC4 [pystr "A", pystr "B"] (pystr "current") =
        Except.ok m ∧
      lookupKV (pystr "A") m = some (BatchResult.data 42) ∧
      lookupKV (pystr "B") m = some (BatchResult.errorMarker (pystr "boom")) := by
  obtain ⟨m, hm, hmem⟩ := c4_batch_failure_isolated netC4 [pystr "A", pystr "B"]
    (pystr "current") (Or.inl rfl) (by decide)
  exact ⟨m, hm,
    (hmem (pystr "A") (by simp)).1 42 (by rfl),
    (hmem (pystr "B") (by simp)).2 (pystr "boom") (by rfl)⟩

theorem batchGo_error {α : Type} (net : Request → Except PyErr α) (rt : PyStr)
    (pre post : List PyStr) (bad : PyStr) (msg : PyStr)
    (h : ∀ loc ∈ pre, okOrApi (batchTryOne net rt loc) = true)
    (hbad : batchTryOne net rt bad = Except.error (PyErr.valueError msg)) :
    ∀ acc, batchGo net rt (pre ++ bad :: post) acc =
      Except.error (PyErr.valueError msg) := by
  induction pre with
  | nil =>
      intro acc
      rw [List.nil_append, batchGo, hbad]
  | cons loc rest ih =>
      intro acc
      have hloc := h loc (List.mem_cons_self loc rest)
      have hrest : ∀ l ∈ rest, okOrApi (batchTryOne net rt l) = true :=
        fun l hl => h l (List.mem_cons_of_mem loc hl)
      rcases hc : batchTryOne net rt loc with e | d
      · rcases e with m | m | m
        · rw [List.cons_append, batchGo, hc]
          exact ih hrest _
        · rw [hc] at hloc
          simp [okOrApi] at hloc
        · rw [hc] at hloc
          simp [okOrApi] at hloc
      · rw [List.cons_append, batchGo, hc]
        exact ih hrest _

/-- C10: the batch loop isolates only `WeatherAPIError`.  An invalid
`request_type` raises `ValueError` out of the whole batch for any
non-empty location list, and a per-location call failing with a
non-`WeatherAPIError` exception (such as `ValueError`) propagates to the
caller, aborting the batch and discarding the results already
collected. -/
theorem c10_non_api_error_aborts_batch {α : Type}
    (net : Request → Except PyErr α) (rt : PyStr) :
    (∀ (loc0 : PyStr) (locs : List PyStr), rt ≠ pystr "current" →
      rt ≠ pystr "forecast" →
      batchWeatherRequest net (loc0 :: locs) rt =
        Except.error (PyErr.valueError (pystr "Invalid request type: " ++ rt))) ∧
    (∀ (pre post : List PyStr) (bad : PyStr) (msg : PyStr),
      (∀ loc ∈ pre, okOrApi (batchTryOne net rt loc) = true) →
      batchTryOne net rt bad = Except.error (PyErr.valueError msg) →
      batchWeatherRequest net (pre ++ bad :: post) rt =
        Except.error (PyErr.valueError msg)) := by
  constructor
  · intro loc0 locs h1 h2
    unfold batchWeatherRequest
    rw [batchGo]
    simp only [batchTryOne, if_neg h1, if_neg h2]
  · intro pre post bad msg h hbad
    exact batchGo_error net rt pre post bad msg h hbad []

/-- Concrete oracle for the C10 witness: every request succeeds. -/
def netC10 : Request → Except PyErr Nat := fun _ => Except.ok 7

/-- Witness for C10 at concrete inputs: an invalid request type aborts a
one-element batch, and a per-location `ValueError` (empty location name,
which fails `get_current_weather`'s validation) aborts the batch after a
successful first location, discarding its result. -/
theorem c10_non_api_error_aborts_batch_witness :
    batchWeatherRequest netC10 [pystr "Tokyo"] (pystr "bogus") =
      Except.error (PyErr.valueError (pystr "Invalid request type: bogus")) ∧
    batchWeatherRequest netC10 [pystr "A", pystr ""] (pystr "current") =
      Except.error (PyErr.valueError
        (pystr "Either location or coordinates required")) := by
  constructor
  · have := (c10_non_api_error_aborts_batch netC10 (pystr "bogus")).1
      (pystr "Tokyo") [] (by decide) (by decide)
    simpa using this
  · exact (c10_non_api_error_aborts_batch netC10 (pystr "current")).2
      [pystr "A"] [] (pystr "")
      (pystr "Either location or coordinates required") (by decide) (by rfl)

/-! ### Hash primitives

Concrete implementations of SHA-256, HMAC-SHA256 and MD5 over byte lists
(bytes as `Nat` values < 256, 32-bit words as `Nat` reduced mod `2^32`),
used by `verify_webhook_signature` (`hmac`/`hashlib.sha256`) and
`_get_cache_key` (`hashlib.md5`).  They are validated against the
standard test vectors below. -/

/-- `2^32`, the word modulus. -/
def M32 : Nat := 4294967296

/-- Right rotation of a 32-bit word. -/
def rotr (n x : Nat) : Nat := ((x >>> n) ||| (x <<< (32 - n))) % M32

/-- Left rotation of a 32-bit word. -/
def rotl (n x : Nat) : Nat := ((x <<< n) ||| (x >>> (32 - n))) % M32

/-- Big-endian byte serialization of a value into `n` bytes. -/
def toBytesBE (n v : Nat) : List Nat :=
  (List.range n).map (fun i => (v >>> (8 * (n - 1 - i))) % 256)

/-- Little-endian byte serialization of a value into `n` bytes. -/
def toBytesLE (n v : Nat) : List Nat :=
  (List.range n).map (fun i => (v >>> (8 * i)) % 256)

/-- Group bytes into 32-bit words, big-endian. -/
def bytesToWordsBE : List Nat → List Nat
  | b0 :: b1 :: b2 :: b3 :: t =>
      ((b0 <<< 24) + (b1 <<< 16) + (b2 <<< 8) + b3) :: bytesToWordsBE t
  | _ => []

/-- Group bytes into 32-bit words, little-endian. -/
def bytesToWordsLE : List Nat → List Nat
  | b0 :: b1 :: b2 :: b3 :: t =>
      (b0 + (b1 <<< 8) + (b2 <<< 16) + (b3 <<< 24)) :: bytesToWordsLE t
  | _ => []

/-- Split a byte list into 64-byte blocks (fuel-based so that it reduces
definitionally; the fuel `l.length` always suffices). -/
def chunks64Go : Nat → List Nat → List (List Nat)
  | _, [] => []
  | 0, _ :: _ => []
  | fuel + 1, l@(_ :: _) => l.take 64 :: chunks64Go fuel (l.drop 64)

/-- Split a byte list into 64-byte blocks. -/
def chunks64 (l : List Nat) : List (List Nat) := chunks64Go l.length l

/-- Merkle–Damgård padding with a big-endian 64-bit bit length (SHA-256). -/
def sha256pad (msg : List Nat) : List Nat :=
  let len := msg.length
  let z := (55 + 64 - len % 64) % 64
  msg ++ [128] ++ List.replicate z 0 ++ toBytesBE 8 (len * 8)

/-- SHA-256 round constants. -/
def shaK : List Nat :=
  [1116352408, 1899447441, 3049323471, 3921009573, 961987163,
   1508970993, 2453635748, 2870763221, 3624381080, 310598401,
   607225278, 1426881987, 1925078388, 2162078206, 2614888103,
   3248222580, 3835390401, 4022224774, 264347078, 604807628,
   770255983, 1249150122, 1555081692, 1996064986, 2554220882,
   2821834349, 2952996808, 3210313671, 3336571891, 3584528711,
   113926993, 338241895, 666307205, 773529912, 1294757372,
   1396182291, 1695183700, 1986661051, 2177026350, 2456956037,
   2730485921, 2820302411, 3259730800, 3345764771, 3516065817,
   3600352804, 4094571909, 275423344, 430227734, 506948616,
   659060556, 883997877, 958139571, 1322822218, 1537002063,
   1747873779, 1955562222, 2024104815, 2227730452, 2361852424,
   2428436474, 2756734187, 3204031479, 3329325298]

/-- SHA-256 initial hash state. -/
def shaH0 : List Nat :=
  [1779033703, 3144134277, 1013904242, 2773480762,
   1359893119, 2600822924, 528734635, 1541459225]

/-- SHA-256 message-schedule sigma functions. -/
def smallSigma0 (x : Nat) : Nat := (rotr 7 x) ^^^ (rotr 18 x) ^^^ (x >>> 3)

/-- SHA-256 message-schedule sigma functions. -/
def smallSigma1 (x : Nat) : Nat := (rotr 17 x) ^^^ (rotr 19 x) ^^^ (x >>> 10)

/-- SHA-256 compression sigma functions. -/
def bigSigma0 (x : Nat) : Nat := (rotr 2 x) ^^^ (rotr 13 x) ^^^ (rotr 22 x)

/-- SHA-256 compression sigma functions. -/
def bigSigma1 (x : Nat) : Nat := (rotr 6 x) ^^^ (rotr 11 x) ^^^ (rotr 25 x)

/-- Extend the 16 block words to the 64-entry message schedule. -/
def extendW (w : List Nat) : List Nat :=
  (List.range 48).foldl
    (fun ws j =>
      let i := j + 16
      ws ++ [(smallSigma1 (ws.getD (i - 2) 0) + ws.getD (i - 7) 0 +
              smallSigma0 (ws.getD (i - 15) 0) + ws.getD (i - 16) 0) % M32])
    w

/-- SHA-256 compression of one 64-byte block into the hash state. -/
def shaCompress (h : List Nat) (block : List Nat) : List Nat :=
  let ws := extendW (bytesToWordsBE block)
  let st := (List.range 64).foldl
    (fun st i =>
      let a := st.getD 0 0
      let b := st.getD 1 0
      let c := st.getD 2 0
      let d := st.getD 3 0
      let e := st.getD 4 0
      let f := st.getD 5 0
      let g := st.getD 6 0
      let hh := st.getD 7 0
      let ch := (e &&& f) ^^^ ((e ^^^ 4294967295) &&& g)
      let maj := (a &&& b) ^^^ (a &&& c) ^^^ (b &&& c)
      let t1 := (hh + bigSigma1 e + ch + shaK.getD i 0 + ws.getD i 0) % M32
      let t2 := (bigSigma0 a + maj) % M32
      [(t1 + t2) % M32, a, b, c, (d + t1) % M32, e, f, g])
    h
  List.zipWith (fun x y => (x + y) % M32) h st

/-- `hashlib.sha256(msg).digest()`. -/
def sha256 (msg : List Nat) : List Nat :=
  let hFinal := (chunks64 (sha256pad msg)).foldl shaCompress shaH0
  hFinal.flatMap (toBytesBE 4)

/-- Lowercase hexadecimal digit. -/
def hexChar (n : Nat) : Char := ("0123456789abcdef".data).getD n 'x'

/-- `.hexdigest()`: lowercase hex rendering of a byte string. -/
def hexDigest (bytes : List Nat) : PyStr :=
  bytes.flatMap (fun b => [hexChar (b / 16), hexChar (b % 16)])

/-- `str.encode()`: UTF-8 encoding of a string (1-byte below U+0080,
2-byte below U+0800, 3-byte below U+10000, else 4-byte).  A Lean `Char`
ranges over Unicode scalar values only, so the lone-surrogate inputs that
`str.encode()` rejects with `UnicodeEncodeError` cannot occur in the
model. -/
def utf8Encode (s : PyStr) : List Nat :=
  s.flatMap (fun c =>
    let n := c.toNat
    if n < 128 then [n]
    else if n < 2048 then [192 ||| (n >>> 6), 128 ||| (n &&& 63)]
    else if n < 65536 then
      [224 ||| (n >>> 12), 128 ||| ((n >>> 6) &&& 63), 128 ||| (n &&& 63)]
    else
      [240 ||| (n >>> 18), 128 ||| ((n >>> 12) &&& 63),
       128 ||| ((n >>> 6) &&& 63), 128 ||| (n &&& 63)])

theorem utf8Encode_vector_twoByte : utf8Encode (pystr "é") = [195, 169] := by
  decide

theorem utf8Encode_vector_u0500 : utf8Encode (pystr "Ԁ") = [212, 128] := by
  decide

theorem utf8Encode_vector_fourByte :
    utf8Encode (pystr "😀") = [240, 159, 152, 128] := by
  decide

/-- `hmac.new(key, msg, hashlib.sha256).digest()` (RFC 2104, block size
64). -/
def hmacSha256 (key msg : List Nat) : List Nat :=
  let k1 := if key.length > 64 then sha256 key else key
  let k2 := k1 ++ List.replicate (64 - k1.length) 0
  let ipadKey := k2.map (fun b => b ^^^ 54)
  let opadKey := k2.map (fun b => b ^^^ 92)
  sha256 (opadKey ++ sha256 (ipadKey ++ msg))

set_option maxRecDepth 20000 in
theorem sha256_vector_abc :
    hexDigest (sha256 (utf8Encode (pystr "abc"))) =
      pystr "ba7816bf8f01cfea414140de5dae2223b00361a396177a9cb410ff61f20015ad" := by
  decide

set_option maxRecDepth 20000 in
theorem sha256_vector_empty :
    hexDigest (sha256 []) =
      pystr "e3b0c44298fc1c149afbf4c8996fb92427ae41e4649b934ca495991b7852b855" := by
  decide

set_option maxRecDepth 20000 in
theorem hmacSha256_vector :
    hexDigest (hmacSha256 (utf8Encode (pystr "key"))
        (utf8Encode (pystr "The quick brown fox jumps over the lazy dog"))) =
      pystr "f7bc83f430538424b13298e6aa6fb143ef4d59a14946175997479dbc2d1a3cd8" := by
  decide

/-- MD5 per-round left-rotation amounts. -/
def md5S : List Nat :=
  [7, 12, 17, 22, 7, 12, 17, 22, 7, 12, 17, 22, 7, 12, 17, 22,
   5, 9, 14, 20, 5, 9, 14, 20, 5, 9, 14, 20, 5, 9, 14, 20,
   4, 11, 16, 23, 4, 11, 16, 23, 4, 11, 16, 23, 4, 11, 16, 23,
   6, 10, 15, 21, 6, 10, 15, 21, 6, 10, 15, 21, 6, 10, 15, 21]

/-- MD5 round constants. -/
def md5K : List Nat :=
  [3614090360, 3905402710, 606105819, 3250441966, 4118548399,
   1200080426, 2821735955, 4249261313, 1770035416, 2336552879,
   4294925233, 2304563134, 1804603682, 4254626195, 2792965006,
   1236535329, 4129170786, 3225465664, 643717713, 3921069994,
   3593408605, 38016083, 3634488961, 3889429448, 568446438,
   3275163606, 4107603335, 1163531501, 2850285829, 4243563512,
   1735328473, 2368359562, 4294588738, 2272392833, 1839030562,
   4259657740, 2763975236, 1272893353, 4139469664, 3200236656,
   681279174, 3936430074, 3572445317, 76029189, 3654602809,
   3873151461, 530742520, 3299628645, 4096336452, 1126891415,
   2878612391, 4237533241, 1700485571, 2399980690, 4293915773,
   2240044497, 1873313359, 4264355552, 2734768916, 1309151649,
   4149444226, 3174756917, 718787259, 3951481745]

/-- Merkle–Damgård padding with a little-endian 64-bit bit length (MD5). -/
def md5pad (msg : List Nat) : List Nat :=
  let len := msg.length
  let z := (55 + 64 - len % 64) % 64
  msg ++ [128] ++ List.replicate z 0 ++ toBytesLE 8 (len * 8)

/-- MD5 compression of one 64-byte block into the state. -/
def md5Compress (st : List Nat) (block : List Nat) : List Nat :=
  let m := bytesToWordsLE block
  let st2 := (List.range 64).foldl
    (fun st i =>
      let a := st.getD 0 0
      let b := st.getD 1 0
      let c := st.getD 2 0
      let d := st.getD 3 0
      let notB := b ^^^ 4294967295
      let notD := d ^^^ 4294967295
      let f :=
        if i < 16 then (b &&& c) ||| (notB &&& d)
        else if i < 32 then (d &&& b) ||| (notD &&& c)
        else if i < 48 then b ^^^ c ^^^ d
        else c ^^^ (b ||| notD)
      let g :=
        if i < 16 then i
        else if i < 32 then (5 * i + 1) % 16
        else if i < 48 then (3 * i + 5) % 16
        else (7 * i) % 16
      let f2 := (f + a + md5K.getD i 0 + m.getD g 0) % M32
      [d, (b + rotl (md5S.getD i 0) f2) % M32, b, c])
    st
  List.zipWith (fun x y => (x + y) % M32) st st2

/-- `hashlib.md5(msg).digest()`. -/
def md5 (msg : List Nat) : List Nat :=
  let stF := (chunks64 (md5pad msg)).foldl md5Compress
    [1732584193, 4023233417, 2562383102, 271733878]
  stF.flatMap (toBytesLE 4)

set_option maxRecDepth 20000 in
theorem md5_vector_abc :
    hexDigest (md5 (utf8Encode (pystr "abc"))) =
      pystr "900150983cd24fb0d6963f7d28e17f72" := by
  decide

set_option maxRecDepth 20000 in
theorem md5_vector_empty :
    hexDigest (md5 []) = pystr "d41d8cd98f00b204e9800998ecf8427e" := by
  decide

/-! ### `WeatherClient.verify_webhook_signature` (lines 491–514) -/

/-- Whether a Python string is ASCII-only. -/
def isAsciiStr (s : PyStr) : Bool := s.all (fun c => decide (c.toNat < 128))

/-- `hmac.compare_digest` on two `str` operands: CPython first requires
both strings to be ASCII-only and raises
`TypeError('comparing strings with non-ASCII characters is not
supported')` otherwise; for ASCII operands it performs a timing-safe
comparison whose result is exactly string equality. -/
def compareDigest (a b : PyStr) : Except PyErr Bool :=
  if isAsciiStr a && isAsciiStr b then Except.ok (decide (a = b))
  else
    Except.error (PyErr.typeError
      (pystr "comparing strings with non-ASCII characters is not supported"))

/-- `WeatherClient.verify_webhook_signature`: computes
`hmac.new(secret.encode(), payload, hashlib.sha256).hexdigest()` and
compares it with the supplied signature via `hmac.compare_digest`. -/
def verifyWebhookSignature (payload : List Nat) (signature : PyStr)
    (secret : PyStr) : Except PyErr Bool :=
  let expected := hexDigest (hmacSha256 (utf8Encode secret) payload)
  compareDigest expected signature

theorem hexChar_ascii (n : Nat) : (hexChar n).toNat < 128 := by
  by_cases h : n < 16
  · have h16 : ∀ m : Fin 16, (hexChar m.val).toNat < 128 := by decide
    exact h16 ⟨n, h⟩
  · have hlen : ("0123456789abcdef".data).length = 16 := rfl
    unfold hexChar
    rw [List.getD_eq_default]
    · decide
    · rw [hlen]
      exact not_lt.mp h

theorem hexDigest_ascii (bs : List Nat) :
    isAsciiStr (hexDigest bs) = true := by
  unfold isAsciiStr hexDigest
  rw [List.all_eq_true]
  intro c hc
  obtain ⟨b, _, hcb⟩ := List.mem_flatMap.mp hc
  rcases List.mem_cons.mp hcb with rfl | hcb'
  · exact decide_eq_true (hexChar_ascii _)
  · obtain rfl := List.mem_singleton.mp hcb'
    exact decide_eq_true (hexChar_ascii _)

set_option maxRecDepth 20000 in
/-- C3 counterexample: for a non-ASCII signature — which necessarily
differs from the (ASCII hex) digest — `verify_webhook_signature` does not
return false: `hmac.compare_digest` raises `TypeError` instead.  This
refutes the claim that every signature differing from the digest yields
false. -/
theorem c3_counterexample :
    verifyWebhookSignature [] (pystr "é") (pystr "key") =
      Except.error (PyErr.typeError
        (pystr "comparing strings with non-ASCII characters is not supported")) := by
  rfl

/-- C3 amended: `verify_webhook_signature(payload, signature, secret)`
returns true if and only if `signature` equals the hex digest of
HMAC-SHA256 keyed by `secret` over `payload`; in particular the genuine
digest always verifies, and any *ASCII* signature differing from the
digest yields false.  A signature containing a non-ASCII character
instead makes `hmac.compare_digest` raise
`TypeError('comparing strings with non-ASCII characters is not
supported')` rather than return false. -/
theorem c3_verify_signature_ascii_iff (payload : List Nat)
    (signature : PyStr) (secret : PyStr) :
    (verifyWebhookSignature payload signature secret = Except.ok true ↔
      signature = hexDigest (hmacSha256 (utf8Encode secret) payload)) ∧
    verifyWebhookSignature payload
      (hexDigest (hmacSha256 (utf8Encode secret) payload)) secret =
      Except.ok true ∧
    (isAsciiStr signature = true →
      signature ≠ hexDigest (hmacSha256 (utf8Encode secret) payload) →
      verifyWebhookSignature payload signature secret = Except.ok false) ∧
    (isAsciiStr signature = false →
      verifyWebhookSignature payload signature secret =
        Except.error (PyErr.typeError
          (pystr "comparing strings with non-ASCII characters is not supported"))) := by
  have hE := hexDigest_ascii (hmacSha256 (utf8Encode secret) payload)
  have hver : ∀ s : PyStr, verifyWebhookSignature payload s secret =
      if isAsciiStr s = true then
        Except.ok
          (decide (hexDigest (hmacSha256 (utf8Encode secret) payload) = s))
      else
        Except.error (PyErr.typeError
          (pystr "comparing strings with non-ASCII characters is not supported")) := by
    intro s
    unfold verifyWebhookSignature compareDigest
    rcases hs : isAsciiStr s with _ | _
    · simp [hE, hs]
    · simp [hE, hs]
  refine ⟨?_, ?_, ?_, ?_⟩
  · rw [hver signature]
    rcases hs : isAsciiStr signature with _ | _
    · rw [if_neg Bool.false_ne_true]
      constructor
      · intro h
        exact absurd h (by simp)
      · intro h
        rw [h, hE] at hs
        exact absurd hs (by decide)
    · rw [if_pos rfl]
      simp only [Except.ok.injEq]
      rw [decide_eq_true_iff]
      exact eq_comm
  · rw [hver, if_pos hE]
    simp
  · intro hs hneq
    rw [hver, if_pos hs]
    rw [decide_eq_false (fun he => hneq he.symm)]
  · intro hs
    rw [hver, if_neg (by rw [hs]; exact Bool.false_ne_true)]

set_option maxRecDepth 20000 in
/-- Witness for C3 (amended) at concrete inputs: the genuine digest
verifies, a differing ASCII signature yields false, and a non-ASCII
signature raises `TypeError`. -/
theorem c3_verify_signature_ascii_iff_witness :
    verifyWebhookSignature []
        (hexDigest (hmacSha256 (utf8Encode (pystr "key")) [])) (pystr "key") =
      Except.ok true ∧
    verifyWebhookSignature [] (pystr "deadbeef") (pystr "key") =
      Except.ok false ∧
    verifyWebhookSignature [] (pystr "é") (pystr "key") =
      Except.error (PyErr.typeError
        (pystr "comparing strings with non-ASCII characters is not supported")) :=
  ⟨(c3_verify_signature_ascii_iff [] (pystr "x") (pystr "key")).2.1,
   (c3_verify_signature_ascii_iff [] (pystr "deadbeef") (pystr "key")).2.2.1
     (by decide) (by decide),
   (c3_verify_signature_ascii_iff [] (pystr "é") (pystr "key")).2.2.2
     (by decide)⟩

/-! ### `WeatherMonitor` (lines 561–685)

State: `self.thresholds` is a dict keyed by the f-string
`f"{location}:{parameter}"`, and `self.callbacks['threshold_exceeded']`
is a list of callbacks, modelled by its length `nCallbacks` (a callback
is identified by its registration index; `_trigger_callbacks` invokes
them in order and swallows their own exceptions, so only the fact of each
invocation with its payload is modelled).

`check_thresholds` is modelled as a trace: the list of locations fetched
(in the model, the distinct rule locations — Python iterates a `set`,
whose order is unspecified; all theorems below are order-insensitive),
the list of callback invocations `(callback index, event payload)`, and
an optional uncaught exception.  `except WeatherAPIError` around the body
catches fetch failures per location; a `ValueError` from
`_check_condition` is not caught and aborts the scan. -/

/-- A threshold rule as stored by `set_threshold`. -/
structure ThresholdRule where
  operator : PyStr
  value : Int
  parameter : PyStr
  location : PyStr
deriving DecidableEq

/-- The event payload passed to `threshold_exceeded` callbacks. -/
structure ThresholdEvent where
  location : PyStr
  parameter : PyStr
  value : Int
  threshold : Int
  operator : PyStr
deriving DecidableEq

/-- `WeatherMonitor` state. -/
structure Monitor where
  thresholds : List (PyStr × ThresholdRule)
  nCallbacks : Nat
deriving DecidableEq

/-- A fresh `WeatherMonitor`. -/
def monitorInit : Monitor := ⟨[], 0⟩

/-- `WeatherMonitor.set_threshold` (lines 577–599): stores the rule under
the key `f"{location}:{parameter}"` with no validation whatsoever. -/
def setThreshold (m : Monitor) (parameter : PyStr) (operator : PyStr)
    (value : Int) (location : PyStr) : Monitor :=
  let key := location ++ ':' :: parameter
  let rule : ThresholdRule := ⟨operator, value, parameter, location⟩
  { m with thresholds := dictInsert key rule m.thresholds }

/-- `WeatherMonitor.on_threshold_exceeded`: appends one callback. -/
def onThresholdExceeded (m : Monitor) : Monitor :=
  { m with nCallbacks := m.nCallbacks + 1 }

/-- `weather['current']`: the numeric fields of the current-weather
response that the monitor reads. -/
abbrev CurrentData := List (PyStr × Int)

/-- `WeatherMonitor._check_condition` (lines 645–659): look the operator
up among the six comparison operators, raising
`ValueError(f"Invalid operator: …")` for any other operator. -/
def checkCondition (value : Int) (operator : PyStr) (threshold : Int) :
    Except PyErr Bool :=
  if operator = pystr ">" then Except.ok (decide (value > threshold))
  else if operator = pystr "<" then Except.ok (decide (value < threshold))
  else if operator = pystr ">=" then Except.ok (decide (value ≥ threshold))
  else if operator = pystr "<=" then Except.ok (decide (value ≤ threshold))
  else if operator = pystr "==" then Except.ok (decide (value = threshold))
  else if operator = pystr "!=" then Except.ok (decide (value ≠ threshold))
  else Except.error (PyErr.valueError (pystr "Invalid operator: " ++ operator))

/-- The six operators `_check_condition` accepts. -/
def validOperators : List PyStr :=
  [pystr ">", pystr "<", pystr ">=", pystr "<=", pystr "==", pystr "!="]

/-- `WeatherMonitor._trigger_callbacks('threshold_exceeded', ev)`: every
registered callback is invoked once, in registration order. -/
def triggerCallbacks (n : Nat) (ev : ThresholdEvent) :
    List (Nat × ThresholdEvent) :=
  (List.range n).map (fun i => (i, ev))

/-- The inner rule loop of `check_thresholds` for one location
`locationVar`: iterate over all thresholds, keep those whose key
satisfies `key.startswith(f"{location}:")`, skip rules whose parameter is
absent from the data, and for the rest evaluate the condition, invoking
the callbacks when it holds.  Returns the emitted invocations and the
uncaught exception, if any (a `ValueError` from `_check_condition` aborts
the loop, keeping the invocations already made). -/
def evalRules (locationVar : PyStr) (data : CurrentData) (n : Nat) :
    List (PyStr × ThresholdRule) →
    List (Nat × ThresholdEvent) × Option PyErr
  | [] => ([], none)
  | (key, th) :: rest =>
      if (locationVar ++ [':']).isPrefixOf key then
        match lookupKV th.parameter data with
        | some v =>
            match checkCondition v th.operator th.value with
            | Except.ok b =>
                let evs :=
                  if b then
                    triggerCallbacks n
                      ⟨locationVar, th.parameter, v, th.value, th.operator⟩
                  else []
                let r := evalRules locationVar data n rest
                (evs ++ r.1, r.2)
            | Except.error e => ([], some e)
        | none => evalRules locationVar data n rest
      else evalRules locationVar data n rest

/-- The body of the per-location loop of `check_thresholds`:
`get_current_weather(location)['current']` is the oracle `fetch`;
`except WeatherAPIError` catches client-level failures (logged, location
skipped), anything else propagates. -/
def checkLocation (fetch : PyStr → Except PyErr CurrentData)
    (ths : List (PyStr × ThresholdRule)) (n : Nat) (locationVar : PyStr) :
    List (Nat × ThresholdEvent) × Option PyErr :=
  match fetch locationVar with
  | Except.ok data => evalRules locationVar data n ths
  | Except.error (PyErr.weatherAPIError _) => ([], none)
  | Except.error e => ([], some e)

/-- The trace of one `check_thresholds()` call. -/
structure CheckResult where
  fetched : List PyStr
  events : List (Nat × ThresholdEvent)
  err : Option PyErr
deriving DecidableEq

/-- The outer location loop of `check_thresholds`. -/
def checkLocationsGo (fetch : PyStr → Except PyErr CurrentData)
    (ths : List (PyStr × ThresholdRule)) (n : Nat) :
    List PyStr → CheckResult
  | [] => ⟨[], [], none⟩
  | L :: rest =>
      let r := checkLocation fetch ths n L
      match r.2 with
      | some e => ⟨[L], r.1, some e⟩
      | none =>
          let rTail := checkLocationsGo fetch ths n rest
          ⟨L :: rTail.fetched, r.1 ++ rTail.events, rTail.err⟩

/-- `locations = set(t['location'] for t in self.thresholds.values())`,
one representative per distinct location. -/
def monitorLocations (m : Monitor) : List PyStr :=
  (m.thresholds.map (fun kv => kv.2.location)).dedup

/-- `WeatherMonitor.check_thresholds` (lines 612–643). -/
def checkThresholds (fetch : PyStr → Except PyErr CurrentData) (m : Monitor) :
    CheckResult :=
  checkLocationsGo fetch m.thresholds m.nCallbacks (monitorLocations m)

/-- Concrete monitor for the C2 counterexample: one rule with the invalid
operator `~`. -/
def monitorC2 : Monitor :=
  setThreshold monitorInit (pystr "temperature") (pystr "~") 30 (pystr "X")

/-- Concrete fetch oracle for the C2 counterexample: the current weather
of every location reports temperature 25. -/
def fetchC2 : PyStr → Except PyErr CurrentData :=
  fun _ => Except.ok [(pystr "temperature", 25)]

/-- C2 counterexample: a rule with the invalid operator `~` does not fail
at registration, and during `check_thresholds` the current weather of its
location is fetched (a network call) before the
`ValueError 'Invalid operator: ~'` is raised — refuting the claim that
the `ValueError` is raised before any network call. -/
theorem c2_counterexample :
    (checkThresholds fetchC2 monitorC2).fetched = [pystr "X"] ∧
    (checkThresholds fetchC2 monitorC2).err =
      some (PyErr.valueError (pystr "Invalid operator: ~")) := by
  constructor
  · rfl
  · rfl

theorem colon_key_isPrefixOf (L param : PyStr) :
    (L ++ [':']).isPrefixOf (L ++ ':' :: param) = true := by
  rw [List.isPrefixOf_iff_prefix]
  have h : L ++ ':' :: param = (L ++ [':']) ++ param := by simp
  rw [h]
  exact List.prefix_append _ _

/-- C2 amended: `set_threshold` accepts an invalid comparison operator
silently (no validation, no network call); the
`ValueError 'Invalid operator: …'` is raised only later, inside
`check_thresholds`, after the current-weather fetch for the rule's
location and only when the rule's parameter is present in the fetched
response — not before any network call. -/
theorem c2_invalid_operator_raises_after_fetch
    (param op L : PyStr) (value : Int) (m : Monitor)
    (fetch : PyStr → Except PyErr CurrentData) (d : CurrentData) (v : Int)
    (hop : op ∉ validOperators)
    (hth : m.thresholds = [(L ++ ':' :: param, ⟨op, value, param, L⟩)])
    (hfetch : fetch L = Except.ok d)
    (hv : lookupKV param d = some v) :
    (∀ m' : Monitor,
      lookupKV (L ++ ':' :: param) (setThreshold m' param op value L).thresholds =
        some ⟨op, value, param, L⟩) ∧
    (checkThresholds fetch m).fetched = [L] ∧
    (checkThresholds fetch m).events = [] ∧
    (checkThresholds fetch m).err =
      some (PyErr.valueError (pystr "Invalid operator: " ++ op)) := by
  simp only [validOperators, List.mem_cons, List.mem_singleton] at hop
  push_neg at hop
  obtain ⟨h1, h2, h3, h4, h5, h6⟩ := hop
  have hcc : checkCondition v op value =
      Except.error (PyErr.valueError (pystr "Invalid operator: " ++ op)) := by
    simp [checkCondition, h1, h2, h3, h4, h5, h6]
  have hloc : monitorLocations m = [L] := by
    simp [monitorLocations, hth]
  have heval : evalRules L d m.nCallbacks m.thresholds =
      ([], some (PyErr.valueError (pystr "Invalid operator: " ++ op))) := by
    rw [hth]
    rw [evalRules]
    rw [if_pos (colon_key_isPrefixOf L param)]
    simp only [hv, hcc]
  have hcl : checkLocation fetch m.thresholds m.nCallbacks L =
      ([], some (PyErr.valueError (pystr "Invalid operator: " ++ op))) := by
    unfold checkLocation
    rw [hfetch]
    exact heval
  have hmain : checkThresholds fetch m =
      ⟨[L], [], some (PyErr.valueError (pystr "Invalid operator: " ++ op))⟩ := by
    unfold checkThresholds
    rw [hloc, checkLocationsGo, hcl]
  refine ⟨?_, ?_, ?_, ?_⟩
  · intro m'
    show lookupKV _ (dictInsert _ _ m'.thresholds) = _
    exact lookupKV_dictInsert_self _ _ _
  · rw [hmain]
  · rw [hmain]
  · rw [hmain]

/-- Witness for C2 (amended) at concrete inputs: rule
(location "Y", parameter "humidity", operator "~~"), fetched humidity
40. -/
theorem c2_invalid_operator_raises_after_fetch_witness :
    (checkThresholds (fun _ => Except.ok [(pystr "humidity", 40)])
        ⟨[(pystr "Y" ++ ':' :: pystr "humidity",
           ⟨pystr "~~", 50, pystr "humidity", pystr "Y"⟩)], 1⟩).fetched =
      [pystr "Y"] ∧
    (checkThresholds (fun _ => Except.ok [(pystr "humidity", 40)])
        ⟨[(pystr "Y" ++ ':' :: pystr "humidity",
           ⟨pystr "~~", 50, pystr "humidity", pystr "Y"⟩)], 1⟩).err =
      some (PyErr.valueError (pystr "Invalid operator: ~~")) := by
  have h := c2_invalid_operator_raises_after_fetch (pystr "humidity")
    (pystr "~~") (pystr "Y") 50
    ⟨[(pystr "Y" ++ ':' :: pystr "humidity",
       ⟨pystr "~~", 50, pystr "humidity", pystr "Y"⟩)], 1⟩
    (fun _ => Except.ok [(pystr "humidity", 40)])
    [(pystr "humidity", 40)] 40 (by decide) rfl rfl (by decide)
  exact ⟨h.2.1, h.2.2.2⟩

/-- The callback invocations a single threshold rule contributes when
evaluated under location variable `L` against the fetched data. -/
def ruleEvents (L : PyStr) (data : CurrentData) (n : Nat)
    (kv : PyStr × ThresholdRule) : List (Nat × ThresholdEvent) :=
  match lookupKV kv.2.parameter data with
  | some v =>
      match checkCondition v kv.2.operator kv.2.value with
      | Except.ok b =>
          if b then
            triggerCallbacks n ⟨L, kv.2.parameter, v, kv.2.value, kv.2.operator⟩
          else []
      | Except.error _ => []
  | none => []

theorem checkCondition_ok (v t : Int) {op : PyStr}
    (h : op ∈ validOperators) :
    ∃ b, checkCondition v op t = Except.ok b := by
  simp only [validOperators, List.mem_cons, List.not_mem_nil, or_false] at h
  rcases h with rfl | rfl | rfl | rfl | rfl | rfl
  · exact ⟨_, rfl⟩
  · exact ⟨_, rfl⟩
  · exact ⟨_, rfl⟩
  · exact ⟨_, rfl⟩
  · exact ⟨_, rfl⟩
  · exact ⟨_, rfl⟩

theorem prefix_colon_eq (L : PyStr) :
    ∀ loc param : PyStr, ':' ∉ L → ':' ∉ loc →
      (L ++ [':']) <+: (loc ++ ':' :: param) → loc = L := by
  induction L with
  | nil =>
      intro loc param _ hloc h
      cases loc with
      | nil => rfl
      | cons c loc' =>
          rw [List.nil_append, List.cons_append, List.cons_prefix_cons] at h
          exact absurd (List.mem_cons.mpr (Or.inl h.1)) hloc
  | cons a L' ih =>
      intro loc param hL hloc h
      have hL' : ':' ∉ L' := fun hm => hL (List.mem_cons_of_mem _ hm)
      have haL : a ≠ ':' := fun he => hL (he ▸ List.mem_cons_self a L')
      cases loc with
      | nil =>
          rw [List.cons_append, List.nil_append, List.cons_prefix_cons] at h
          exact absurd h.1 haL
      | cons b loc' =>
          have hloc' : ':' ∉ loc' := fun hm => hloc (List.mem_cons_of_mem _ hm)
          rw [List.cons_append, List.cons_append, List.cons_prefix_cons] at h
          obtain ⟨rfl, h2⟩ := h
          rw [ih loc' param hL' hloc' h2]

theorem startsWithColon_iff (L loc param : PyStr) (hL : ':' ∉ L)
    (hloc : ':' ∉ loc) :
    ((L ++ [':']).isPrefixOf (loc ++ ':' :: param) = true) ↔ loc = L := by
  rw [List.isPrefixOf_iff_prefix]
  constructor
  · exact prefix_colon_eq L loc param hL hloc
  · intro h
    rw [h]
    have he : L ++ ':' :: param = (L ++ [':']) ++ param := by simp
    rw [he]
    exact List.prefix_append _ _

theorem evalRules_eq (L : PyStr) (data : CurrentData) (n : Nat)
    (ths : List (PyStr × ThresholdRule)) (hL : ':' ∉ L)
    (hkey : ∀ kv ∈ ths, kv.1 = kv.2.location ++ ':' :: kv.2.parameter)
    (hcolon : ∀ kv ∈ ths, ':' ∉ kv.2.location)
    (hops : ∀ kv ∈ ths, kv.2.operator ∈ validOperators) :
    evalRules L data n ths =
      ((ths.filter (fun kv => decide (kv.2.location = L))).flatMap
        (ruleEvents L data n), none) := by
  induction ths with
  | nil => rfl
  | cons hd rest ih =>
      obtain ⟨key, th⟩ := hd
      have hkeyh := hkey _ (List.mem_cons_self _ _)
      have hcolonh := hcolon _ (List.mem_cons_self _ _)
      have hopsh := hops _ (List.mem_cons_self _ _)
      have ihr := ih (fun kv hm => hkey kv (List.mem_cons_of_mem _ hm))
        (fun kv hm => hcolon kv (List.mem_cons_of_mem _ hm))
        (fun kv hm => hops kv (List.mem_cons_of_mem _ hm))
      simp only at hkeyh hcolonh hopsh
      by_cases hLoc : th.location = L
      · have hpre : (L ++ [':']).isPrefixOf key = true := by
          rw [hkeyh]
          exact (startsWithColon_iff L th.location th.parameter hL hcolonh).mpr hLoc
        rw [evalRules, if_pos hpre]
        rcases hlk : lookupKV th.parameter data with _ | v
        · simp only [hlk, ihr]
          simp [List.filter_cons, hLoc, List.flatMap_cons, ruleEvents, hlk]
        · obtain ⟨b, hcc⟩ := checkCondition_ok v th.value hopsh
          simp only [hlk, hcc, ihr]
          simp [List.filter_cons, hLoc, List.flatMap_cons, ruleEvents, hlk, hcc]
      · have hnot : ¬((L ++ [':']).isPrefixOf key = true) := by
          rw [hkeyh]
          exact fun hc =>
            hLoc ((startsWithColon_iff L th.location th.parameter hL hcolonh).mp hc)
        rw [evalRules, if_neg hnot, ihr]
        simp [List.filter_cons, hLoc]

theorem checkLocationsGo_ok (fetch : PyStr → Except PyErr CurrentData)
    (ths : List (PyStr × ThresholdRule)) (n : Nat) (Ls : List PyStr)
    (h : ∀ L ∈ Ls, (checkLocation fetch ths n L).2 = none) :
    checkLocationsGo fetch ths n Ls =
      ⟨Ls, Ls.flatMap (fun L => (checkLocation fetch ths n L).1), none⟩ := by
  induction Ls with
  | nil => rfl
  | cons L rest ih =>
      have hL := h L (List.mem_cons_self _ _)
      rw [checkLocationsGo]
      simp only [hL]
      rw [ih (fun L' hm => h L' (List.mem_cons_of_mem _ hm))]
      simp [List.flatMap_cons]

theorem count_flatMap_zero {γ β : Type} [BEq γ] [LawfulBEq γ] (Ls : List β)
    (f : β → List γ) (p : γ) (h : ∀ L ∈ Ls, p ∉ f L) :
    (Ls.flatMap f).count p = 0 := by
  rw [List.count_eq_zero]
  intro hm
  obtain ⟨L, hL, hpf⟩ := List.mem_flatMap.mp hm
  exact h L hL hpf

theorem count_flatMap_unique {γ β : Type} [BEq γ] [LawfulBEq γ]
    (Ls : List β) (f : β → List γ) (p : γ) (L0 : β) (hnd : Ls.Nodup)
    (hL0 : L0 ∈ Ls) (hothers : ∀ L ∈ Ls, L ≠ L0 → p ∉ f L) :
    (Ls.flatMap f).count p = (f L0).count p := by
  induction Ls with
  | nil => cases hL0
  | cons L rest ih =>
      rw [List.flatMap_cons, List.count_append]
      have hnd' := List.nodup_cons.mp hnd
      rcases List.mem_cons.mp hL0 with rfl | hL0r
      · have hrest : ∀ L' ∈ rest, p ∉ f L' := fun L' hL' =>
          hothers L' (List.mem_cons_of_mem _ hL')
            (fun he => hnd'.1 (he ▸ hL'))
        rw [count_flatMap_zero rest f p hrest]
        simp
      · have hLne : L ≠ L0 := fun he => hnd'.1 (he ▸ hL0r)
        rw [List.count_eq_zero_of_not_mem
          (hothers L (List.mem_cons_self _ _) hLne)]
        rw [ih hnd'.2 hL0r
          (fun L' hm => hothers L' (List.mem_cons_of_mem _ hm))]
        simp

theorem count_triggerCallbacks_self (n i : Nat) (ev : ThresholdEvent) :
    (triggerCallbacks n ev).count (i, ev) = if i < n then 1 else 0 := by
  induction n with
  | zero => simp [triggerCallbacks]
  | succ k ih =>
      have step : triggerCallbacks (k + 1) ev =
          triggerCallbacks k ev ++ [(k, ev)] := by
        unfold triggerCallbacks
        rw [List.range_succ, List.map_append]
        rfl
      rw [step, List.count_append, ih, List.count_cons, List.count_nil]
      simp only [beq_iff_eq, Prod.mk.injEq, and_true]
      split_ifs <;> omega

theorem not_mem_triggerCallbacks {n i : Nat} {ev ev' : ThresholdEvent}
    (h : ev' ≠ ev) : (i, ev') ∉ triggerCallbacks n ev := by
  intro hm
  obtain ⟨j, _, he⟩ := List.mem_map.mp hm
  exact h (by simpa using (congrArg Prod.snd he).symm)

theorem mem_ruleEvents {L : PyStr} {data : CurrentData} {n : Nat}
    {kv : PyStr × ThresholdRule} {e : Nat × ThresholdEvent}
    (h : e ∈ ruleEvents L data n kv) :
    e.2.location = L ∧ e.2.parameter = kv.2.parameter ∧
      lookupKV kv.2.parameter data = some e.2.value := by
  unfold ruleEvents at h
  split at h
  · rename_i v hlk
    split at h
    · rename_i b hcc
      split at h
      · obtain ⟨j, _, he⟩ := List.mem_map.mp h
        have h2 := congrArg Prod.snd he
        simp only at h2
        rw [← h2]
        exact ⟨rfl, rfl, hlk⟩
      · cases h
    · cases h
  · cases h

theorem entry_eq_of_nodupKeys {l : List (PyStr × ThresholdRule)}
    (hnd : (l.map Prod.fst).Nodup) {a b : PyStr × ThresholdRule}
    (ha : a ∈ l) (hb : b ∈ l) (hk : a.1 = b.1) : a = b := by
  induction l with
  | nil => cases ha
  | cons hd t ih =>
      rw [List.map_cons, List.nodup_cons] at hnd
      rcases List.mem_cons.mp ha with rfl | ha' <;>
        rcases List.mem_cons.mp hb with rfl | hb'
      · rfl
      · exact absurd (hk ▸ List.mem_map_of_mem Prod.fst hb') hnd.1
      · exact absurd (hk ▸ List.mem_map_of_mem Prod.fst ha') (hk ▸ hnd.1)
      · exact ih hnd.2 ha' hb'

/-- Concrete monitor for the C8 counterexample: two rules registered via
`set_threshold`, one for location `A` and one for location `A:p` (a
location name containing a colon), plus one registered callback. -/
def monitorC8 : Monitor :=
  onThresholdExceeded
    (setThreshold
      (setThreshold monitorInit (pystr "p") (pystr ">") 0 (pystr "A"))
      (pystr "p") (pystr ">") 0 (pystr "A:p"))

/-- Concrete fetch oracle for the C8 counterexample. -/
def fetchC8 : PyStr → Except PyErr CurrentData :=
  fun _ => Except.ok [(pystr "p", 1)]

/-- C8 counterexample: with rules for locations `A` and `A:p`, the
`key.startswith(f"{location}:")` filter matches the `A:p` rule while
iterating location `A` as well (its key `A:p:p` starts with `A:`), so the
single registered callback is invoked twice with the payload of the `A`
rule — refuting "invokes every registered threshold_exceeded callback
exactly once". -/
theorem c8_counterexample :
    (checkThresholds fetchC8 monitorC8).events.count
      (0, ⟨pystr "A", pystr "p", 1, 0, pystr ">"⟩) = 2 := by
  rfl

/-- C8 amended: provided every rule's key is `location + ':' + parameter`
with pairwise-distinct keys, no monitored location name contains `':'`,
every rule's operator is one of the six valid comparison operators, and
the current-weather fetch succeeds for every monitored location, then
`check_thresholds` fetches current weather exactly once per distinct
monitored location and, for each rule whose parameter is present in its
location's response, invokes every registered `threshold_exceeded`
callback exactly once with the payload (location, parameter, observed
value, threshold, operator) when the rule's comparison holds and invokes
no callback for that rule when it does not hold; a rule whose parameter
is absent from the response is silently skipped (no callback invocation
carries its location/parameter pair), and no exception escapes. -/
theorem c8_threshold_evaluation (m : Monitor)
    (fetch : PyStr → Except PyErr CurrentData)
    (hkey : ∀ kv ∈ m.thresholds, kv.1 = kv.2.location ++ ':' :: kv.2.parameter)
    (hnd : (m.thresholds.map Prod.fst).Nodup)
    (hcolon : ∀ kv ∈ m.thresholds, ':' ∉ kv.2.location)
    (hops : ∀ kv ∈ m.thresholds, kv.2.operator ∈ validOperators)
    (hfetch : ∀ kv ∈ m.thresholds, ∃ d, fetch kv.2.location = Except.ok d) :
    (checkThresholds fetch m).err = none ∧
    (checkThresholds fetch m).fetched.Nodup ∧
    (∀ L : PyStr, L ∈ (checkThresholds fetch m).fetched ↔
      ∃ kv ∈ m.thresholds, kv.2.location = L) ∧
    (∀ kv ∈ m.thresholds, ∀ (d : CurrentData) (v : Int) (b : Bool),
      fetch kv.2.location = Except.ok d →
      lookupKV kv.2.parameter d = some v →
      checkCondition v kv.2.operator kv.2.value = Except.ok b →
      ∀ i : Nat,
        (checkThresholds fetch m).events.count
            (i, ⟨kv.2.location, kv.2.parameter, v, kv.2.value, kv.2.operator⟩) =
          if b = true ∧ i < m.nCallbacks then 1 else 0) ∧
    (∀ kv ∈ m.thresholds, ∀ d : CurrentData,
      fetch kv.2.location = Except.ok d →
      lookupKV kv.2.parameter d = none →
      ∀ e ∈ (checkThresholds fetch m).events,
        ¬(e.2.location = kv.2.location ∧ e.2.parameter = kv.2.parameter)) := by
  have hblock : ∀ L ∈ monitorLocations m, ∃ d, fetch L = Except.ok d ∧
      checkLocation fetch m.thresholds m.nCallbacks L =
        ((m.thresholds.filter (fun kv => decide (kv.2.location = L))).flatMap
          (ruleEvents L d m.nCallbacks), none) := by
    intro L hLmem
    rw [monitorLocations, List.mem_dedup] at hLmem
    obtain ⟨kv, hkv, hkvloc⟩ := List.mem_map.mp hLmem
    obtain ⟨d, hd⟩ := hfetch kv hkv
    have hkvloc' : kv.2.location = L := hkvloc
    rw [hkvloc'] at hd
    refine ⟨d, hd, ?_⟩
    unfold checkLocation
    rw [hd]
    exact evalRules_eq L d m.nCallbacks m.thresholds
      (hkvloc' ▸ hcolon kv hkv) hkey hcolon hops
  have hres : checkThresholds fetch m =
      ⟨monitorLocations m,
       (monitorLocations m).flatMap
         (fun L => (checkLocation fetch m.thresholds m.nCallbacks L).1),
       none⟩ := by
    unfold checkThresholds
    apply checkLocationsGo_ok
    intro L hL
    obtain ⟨d, _, hcleq⟩ := hblock L hL
    rw [hcleq]
  have herr : (checkThresholds fetch m).err = none := by rw [hres]
  have hfetchedEq : (checkThresholds fetch m).fetched = monitorLocations m := by
    rw [hres]
  have hevents : (checkThresholds fetch m).events =
      (monitorLocations m).flatMap
        (fun L => (checkLocation fetch m.thresholds m.nCallbacks L).1) := by
    rw [hres]
  have hmemloc : ∀ L : PyStr,
      L ∈ monitorLocations m ↔ ∃ kv ∈ m.thresholds, kv.2.location = L := by
    intro L
    rw [monitorLocations, List.mem_dedup, List.mem_map]
  refine ⟨herr, ?_, ?_, ?_, ?_⟩
  · rw [hfetchedEq]
    exact List.nodup_dedup _
  · intro L
    rw [hfetchedEq]
    exact hmemloc L
  · intro kv0 hkv0 d v b hfd hlk hcc i
    rw [hevents]
    have hloc0mem : kv0.2.location ∈ monitorLocations m :=
      (hmemloc _).mpr ⟨kv0, hkv0, rfl⟩
    have houter : ∀ L ∈ monitorLocations m, L ≠ kv0.2.location →
        (i, (⟨kv0.2.location, kv0.2.parameter, v, kv0.2.value, kv0.2.operator⟩ :
          ThresholdEvent)) ∉
          (checkLocation fetch m.thresholds m.nCallbacks L).1 := by
      intro L hL hLne hmem
      obtain ⟨dL, _, hcleq⟩ := hblock L hL
      rw [hcleq] at hmem
      simp only at hmem
      obtain ⟨kv, _, hev⟩ := List.mem_flatMap.mp hmem
      exact hLne ((mem_ruleEvents hev).1).symm
    rw [count_flatMap_unique (monitorLocations m) _ _ kv0.2.location
      (List.nodup_dedup _) hloc0mem houter]
    obtain ⟨d', hd', hcleq⟩ := hblock kv0.2.location hloc0mem
    have hdd : d' = d := Except.ok.inj (hd'.symm.trans hfd)
    rw [hdd] at hcleq
    rw [hcleq]
    simp only
    have hnd_entries :
        (m.thresholds.filter
          (fun kv => decide (kv.2.location = kv0.2.location))).Nodup :=
      List.Nodup.sublist (List.filter_sublist _) (List.Nodup.of_map _ hnd)
    have hkv0f : kv0 ∈ m.thresholds.filter
        (fun kv => decide (kv.2.location = kv0.2.location)) :=
      List.mem_filter.mpr ⟨hkv0, by simp⟩
    have hinner : ∀ kv ∈ m.thresholds.filter
        (fun kv => decide (kv.2.location = kv0.2.location)), kv ≠ kv0 →
        (i, (⟨kv0.2.location, kv0.2.parameter, v, kv0.2.value, kv0.2.operator⟩ :
          ThresholdEvent)) ∉
          ruleEvents kv0.2.location d m.nCallbacks kv := by
      intro kv hkvf hkvne hmem
      obtain ⟨hfl, hflP⟩ := List.mem_filter.mp hkvf
      have hsh := mem_ruleEvents hmem
      have hpar : kv.2.parameter = kv0.2.parameter := hsh.2.1.symm
      have hlocEq : kv.2.location = kv0.2.location := of_decide_eq_true hflP
      have hkeq : kv.1 = kv0.1 := by
        rw [hkey kv hfl, hkey kv0 hkv0, hlocEq, hpar]
      exact hkvne (entry_eq_of_nodupKeys hnd hfl hkv0 hkeq)
    rw [count_flatMap_unique _ _ _ kv0 hnd_entries hkv0f hinner]
    simp only [ruleEvents, hlk, hcc]
    rcases b with _ | _
    · simp
    · rw [if_pos rfl, count_triggerCallbacks_self]
      simp
  · intro kv0 hkv0 d hfd hnone e he hcontra
    obtain ⟨heloc, hepar⟩ := hcontra
    rw [hevents] at he
    obtain ⟨L, hL, hbe⟩ := List.mem_flatMap.mp he
    obtain ⟨dL, hdL, hcleq⟩ := hblock L hL
    rw [hcleq] at hbe
    simp only at hbe
    obtain ⟨kv, hkvf, hev⟩ := List.mem_flatMap.mp hbe
    have hsh := mem_ruleEvents hev
    obtain ⟨hfl, hflP⟩ := List.mem_filter.mp hkvf
    have hlocEq : kv.2.location = L := of_decide_eq_true hflP
    have hLloc : L = kv0.2.location := by rw [← hsh.1, heloc]
    have hdd : dL = d := by
      rw [hLloc] at hdL
      exact Except.ok.inj (hdL.symm.trans hfd)
    have hpar : kv.2.parameter = kv0.2.parameter := by rw [← hsh.2.1, hepar]
    have hkeq : kv.1 = kv0.1 := by
      rw [hkey kv hfl, hkey kv0 hkv0, hlocEq, hLloc, hpar]
    have hkveq : kv = kv0 := entry_eq_of_nodupKeys hnd hfl hkv0 hkeq
    have hcontr := hsh.2.2
    rw [hkveq, hdd, hnone] at hcontr
    cases hcontr

/-- Witness for C8 (amended) at a concrete input: a single colon-free
rule (location `X`, parameter `temperature`, operator `>`, threshold 30),
one registered callback, observed temperature 31: the callback fires
exactly once with the full payload. -/
theorem c8_threshold_evaluation_witness :
    (checkThresholds (fun _ => Except.ok [(pystr "temperature", 31)])
        ⟨[(pystr "X" ++ ':' :: pystr "temperature",
           ⟨pystr ">", 30, pystr "temperature", pystr "X"⟩)], 1⟩).events.count
      (0, ⟨pystr "X", pystr "temperature", 31, 30, pystr ">"⟩) = 1 := by
  have h := c8_threshold_evaluation
    ⟨[(pystr "X" ++ ':' :: pystr "temperature",
       ⟨pystr ">", 30, pystr "temperature", pystr "X"⟩)], 1⟩
    (fun _ => Except.ok [(pystr "temperature", 31)])
    (by decide) (by decide) (by decide) (by decide)
    (fun kv _ => ⟨[(pystr "temperature", 31)], rfl⟩)
  have h4 := h.2.2.2.1
    (pystr "X" ++ ':' :: pystr "temperature",
     ⟨pystr ">", 30, pystr "temperature", pystr "X"⟩)
    (List.mem_cons_self _ _) [(pystr "temperature", 31)] 31 true rfl rfl
    rfl 0
  simpa using h4

/-! ### `WeatherClient._get_cache_key` (lines 141–144)

`cache_data = f"{endpoint}:{json.dumps(params, sort_keys=True)}"` followed
by `hashlib.md5(cache_data.encode()).hexdigest()`.  `json.dumps` with
`sort_keys=True` serializes the dict with its keys in sorted (code-point)
order, using `", "` and `": "` separators. -/

/-- Lexicographic (code-point) string comparison, as Python compares
`str` keys when sorting. -/
def pyStrLe : PyStr → PyStr → Bool
  | [], _ => true
  | _ :: _, [] => false
  | a :: as, b :: bs =>
      if a < b then true else if b < a then false else pyStrLe as bs

theorem pyStrLe_total (s t : PyStr) :
    pyStrLe s t = true ∨ pyStrLe t s = true := by
  induction s generalizing t with
  | nil => exact Or.inl rfl
  | cons a as ih =>
      cases t with
      | nil => exact Or.inr rfl
      | cons b bs =>
          by_cases hab : a < b
          · exact Or.inl (by simp [pyStrLe, hab])
          · by_cases hba : b < a
            · exact Or.inr (by simp [pyStrLe, hba, hab])
            · rcases ih bs with h | h
              · exact Or.inl (by simp [pyStrLe, hab, hba, h])
              · exact Or.inr (by simp [pyStrLe, hab, hba, h])

theorem pyStrLe_trans {s t u : PyStr} (h1 : pyStrLe s t = true)
    (h2 : pyStrLe t u = true) : pyStrLe s u = true := by
  induction s generalizing t u with
  | nil => rfl
  | cons a as ih =>
      cases t with
      | nil => exact absurd h1 (by simp [pyStrLe])
      | cons b bs =>
          cases u with
          | nil => exact absurd h2 (by simp [pyStrLe])
          | cons c cs =>
              simp only [pyStrLe] at h1 h2 ⊢
              by_cases hab : a < b <;> by_cases hbc : b < c
              · have hac : a < c := lt_trans hab hbc
                simp [hac]
              · have hcb : ¬c < b := by
                  intro hcb
                  rw [if_neg hbc, if_pos hcb] at h2
                  exact Bool.false_ne_true h2
                have hbc' : b = c := le_antisymm (not_lt.mp hcb) (not_lt.mp hbc)
                subst hbc'
                simp [hab]
              · rw [if_neg hab] at h1
                have hba : ¬b < a := by
                  intro hba
                  rw [if_pos hba] at h1
                  exact Bool.false_ne_true h1
                have hab' : a = b := le_antisymm (not_lt.mp hba) (not_lt.mp hab)
                subst hab'
                simp [hbc]
              · rw [if_neg hab] at h1
                rw [if_neg hbc] at h2
                have hba : ¬b < a := by
                  intro hba
                  rw [if_pos hba] at h1
                  exact Bool.false_ne_true h1
                have hcb : ¬c < b := by
                  intro hcb
                  rw [if_pos hcb] at h2
                  exact Bool.false_ne_true h2
                rw [if_neg hba] at h1
                rw [if_neg hcb] at h2
                have hab' : a = b := le_antisymm (not_lt.mp hba) (not_lt.mp hab)
                subst hab'
                have hac : ¬a < c := hbc
                have hca : ¬c < a := hcb
                simp [hac, hca, ih h1 h2]

theorem pyStrLe_antisymm {s t : PyStr} (h1 : pyStrLe s t = true)
    (h2 : pyStrLe t s = true) : s = t := by
  induction s generalizing t with
  | nil =>
      cases t with
      | nil => rfl
      | cons b bs => exact absurd h2 (by simp [pyStrLe])
  | cons a as ih =>
      cases t with
      | nil => exact absurd h1 (by simp [pyStrLe])
      | cons b bs =>
          simp only [pyStrLe] at h1 h2
          by_cases hab : a < b
          · rw [if_neg (lt_asymm hab), if_pos hab] at h2
            exact absurd h2 Bool.false_ne_true
          · by_cases hba : b < a
            · rw [if_neg hab, if_pos hba] at h1
              exact absurd h1 Bool.false_ne_true
            · have hab' : a = b := le_antisymm (not_lt.mp hba) (not_lt.mp hab)
              subst hab'
              rw [if_neg hab, if_neg hab] at h1 h2
              rw [ih h1 h2]

/-- One step of insertion sort on parameter items, ordered by key. -/
def insortPair (x : PyStr × Val) : List (PyStr × Val) → List (PyStr × Val)
  | [] => [x]
  | y :: ys => if pyStrLe x.1 y.1 then x :: y :: ys else y :: insortPair x ys

/-- Sort the parameter items by key (`sort_keys=True`). -/
def sortPairs : List (PyStr × Val) → List (PyStr × Val)
  | [] => []
  | x :: xs => insortPair x (sortPairs xs)

theorem insortPair_perm (x : PyStr × Val) (l : List (PyStr × Val)) :
    (insortPair x l).Perm (x :: l) := by
  induction l with
  | nil => exact List.Perm.refl _
  | cons y ys ih =>
      rw [insortPair]
      by_cases h : pyStrLe x.1 y.1
      · rw [if_pos h]
      · rw [if_neg h]
        exact (ih.cons y).trans (List.Perm.swap x y ys)

theorem sortPairs_perm (l : List (PyStr × Val)) : (sortPairs l).Perm l := by
  induction l with
  | nil => exact List.Perm.refl _
  | cons x xs ih => exact (insortPair_perm x (sortPairs xs)).trans (ih.cons x)

theorem insortPair_sorted (x : PyStr × Val) {l : List (PyStr × Val)}
    (h : l.Pairwise (fun p q => pyStrLe p.1 q.1 = true)) :
    (insortPair x l).Pairwise (fun p q => pyStrLe p.1 q.1 = true) := by
  induction l with
  | nil => simp [insortPair]
  | cons y ys ih =>
      rw [insortPair]
      obtain ⟨hy, hys⟩ := List.pairwise_cons.mp h
      by_cases hxy : pyStrLe x.1 y.1
      · rw [if_pos hxy]
        refine List.pairwise_cons.mpr ⟨?_, h⟩
        intro z hz
        rcases List.mem_cons.mp hz with rfl | hz'
        · exact hxy
        · exact pyStrLe_trans hxy (hy z hz')
      · rw [if_neg hxy]
        have hyx : pyStrLe y.1 x.1 = true := by
          rcases pyStrLe_total x.1 y.1 with h' | h'
          · exact absurd h' hxy
          · exact h'
        refine List.pairwise_cons.mpr ⟨?_, ih hys⟩
        intro z hz
        have hz2 := (insortPair_perm x ys).mem_iff.mp hz
        rcases List.mem_cons.mp hz2 with rfl | hz'
        · exact hyx
        · exact hy z hz'

theorem sortPairs_sorted (l : List (PyStr × Val)) :
    (sortPairs l).Pairwise (fun p q => pyStrLe p.1 q.1 = true) := by
  induction l with
  | nil => simp [sortPairs]
  | cons x xs ih => exact insortPair_sorted x ih

theorem sorted_perm_eq :
    ∀ {l₁ l₂ : List (PyStr × Val)}, l₁.Perm l₂ →
      l₁.Pairwise (fun p q => pyStrLe p.1 q.1 = true) →
      l₂.Pairwise (fun p q => pyStrLe p.1 q.1 = true) →
      (l₁.map Prod.fst).Nodup → l₁ = l₂ := by
  intro l₁
  induction l₁ with
  | nil =>
      intro l₂ hp _ _ _
      exact (List.Perm.nil_eq hp)
  | cons a t₁ ih =>
      intro l₂ hp hs₁ hs₂ hnd
      cases l₂ with
      | nil => exact absurd hp.symm (by simp)
      | cons b t₂ =>
          have hab : a = b := by
            have ha2 : a ∈ b :: t₂ := hp.mem_iff.mp (List.mem_cons_self _ _)
            rcases List.mem_cons.mp ha2 with h | h
            · exact h
            · have hb1 : b ∈ a :: t₁ :=
                hp.symm.mem_iff.mp (List.mem_cons_self _ _)
              rcases List.mem_cons.mp hb1 with h' | h'
              · exact h'.symm
              · have hRab : pyStrLe a.1 b.1 = true :=
                  (List.pairwise_cons.mp hs₁).1 b h'
                have hRba : pyStrLe b.1 a.1 = true :=
                  (List.pairwise_cons.mp hs₂).1 a h
                have hkeys : a.1 = b.1 := by
                  have := pyStrLe_antisymm hRab hRba
                  exact this
                rw [List.map_cons, List.nodup_cons] at hnd
                exact absurd (hkeys ▸ List.mem_map_of_mem Prod.fst h') hnd.1
          subst hab
          have ht : t₁ = t₂ := by
            refine ih hp.cons_inv (List.pairwise_cons.mp hs₁).2
              (List.pairwise_cons.mp hs₂).2 ?_
            rw [List.map_cons, List.nodup_cons] at hnd
            exact hnd.2
          rw [ht]

theorem sortPairs_eq_of_perm {l₁ l₂ : List (PyStr × Val)} (hp : l₁.Perm l₂)
    (hnd : (l₁.map Prod.fst).Nodup) : sortPairs l₁ = sortPairs l₂ := by
  refine sorted_perm_eq ((sortPairs_perm l₁).trans (hp.trans (sortPairs_perm l₂).symm))
    (sortPairs_sorted l₁) (sortPairs_sorted l₂) ?_
  have hndp : (sortPairs l₁).Perm l₁ := sortPairs_perm l₁
  exact ((hndp.map Prod.fst).nodup_iff).mpr hnd

/-- Four lowercase hex digits of a value below 2^16. -/
def hex4 (n : Nat) : PyStr :=
  [hexChar (n / 4096 % 16), hexChar (n / 256 % 16),
   hexChar (n / 16 % 16), hexChar (n % 16)]

/-- JSON string escaping as `json.dumps` performs it with the default
`ensure_ascii=True`: backslash, quote and the short control escapes
`\b \t \n \f \r`; other control characters as `\u00xx`; all non-ASCII
characters as `\uxxxx`, astral characters as a UTF-16 surrogate pair. -/
def jsonEscapeChar (c : Char) : PyStr :=
  if c = '\\' then ['\\', '\\']
  else if c = '"' then ['\\', '"']
  else if c = '\x08' then ['\\', 'b']
  else if c = '\t' then ['\\', 't']
  else if c = '\n' then ['\\', 'n']
  else if c = '\x0c' then ['\\', 'f']
  else if c = '\r' then ['\\', 'r']
  else if c.toNat < 32 then '\\' :: 'u' :: hex4 c.toNat
  else if c.toNat < 128 then [c]
  else if c.toNat < 65536 then '\\' :: 'u' :: hex4 c.toNat
  else
    let n := c.toNat - 65536
    ('\\' :: 'u' :: hex4 (55296 + n / 1024)) ++
      ('\\' :: 'u' :: hex4 (56320 + n % 1024))

/-- JSON rendering of a string. -/
def jsonString (s : PyStr) : PyStr :=
  '"' :: s.flatMap jsonEscapeChar ++ ['"']

/-- JSON rendering of a parameter value (numbers are decimal, `None` is
`null`). -/
def encVal : Val → PyStr
  | Val.vStr s => jsonString s
  | Val.vInt n => (toString n).data
  | Val.vNone => pystr "null"

/-- `json.dumps(params, sort_keys=True)` on a flat parameter dict, with
the default `", "` / `": "` separators. -/
def jsonDumpsSortKeys (params : List (PyStr × Val)) : PyStr :=
  '\x7b' ::
    (List.intercalate (pystr ", ")
      ((sortPairs params).map
        (fun kv => jsonString kv.1 ++ pystr ": " ++ encVal kv.2)))
    ++ ['\x7d']

/-- `WeatherClient._get_cache_key`. -/
def getCacheKey (endpoint : PyStr) (params : List (PyStr × Val)) : PyStr :=
  hexDigest (md5 (utf8Encode (endpoint ++ ':' :: jsonDumpsSortKeys params)))

set_option maxRecDepth 20000 in
theorem getCacheKey_vector :
    getCacheKey (pystr "/weather/current")
      [(pystr "b", Val.vInt 2), (pystr "a", Val.vInt 1)] =
      pystr "7e7f82aedd97148b8cf4c118bda1923e" := by
  decide

theorem jsonDumpsSortKeys_vector :
    jsonDumpsSortKeys
      [(pystr "é", Val.vInt 1), (pystr "\n", Val.vInt 2),
       (pystr "😀", Val.vInt 3), (pystr "tab", Val.vStr (pystr "a\tb"))] =
      pystr "\x7b\"\\n\": 2, \"tab\": \"a\\tb\", \"\\u00e9\": 1, \"\\ud83d\\ude00\": 3\x7d" := by
  decide

/-- C6: the cache key is invariant under the insertion order of the
parameter dict — two parameter maps with the same key-value bindings
(distinct keys, as in any Python dict) yield the same key for the same
endpoint, because the serialization sorts the parameter set by key. -/
theorem c6_cache_key_param_order (endpoint : PyStr)
    (l₁ l₂ : List (PyStr × Val)) (hperm : l₁.Perm l₂)
    (hnd : (l₁.map Prod.fst).Nodup) :
    getCacheKey endpoint l₁ = getCacheKey endpoint l₂ := by
  unfold getCacheKey jsonDumpsSortKeys
  rw [sortPairs_eq_of_perm hperm hnd]

/-- Witness for C6 at the spec's concrete input:
`key_for(endpoint, {a:1,b:2}) == key_for(endpoint, {b:2,a:1})`. -/
theorem c6_cache_key_param_order_witness :
    getCacheKey (pystr "/weather/current")
        [(pystr "a", Val.vInt 1), (pystr "b", Val.vInt 2)] =
      getCacheKey (pystr "/weather/current")
        [(pystr "b", Val.vInt 2), (pystr "a", Val.vInt 1)] :=
  c6_cache_key_param_order (pystr "/weather/current")
    [(pystr "a", Val.vInt 1), (pystr "b", Val.vInt 2)]
    [(pystr "b", Val.vInt 2), (pystr "a", Val.vInt 1)]
    (List.Perm.swap _ _ _) (by decide)

end WeatherSpec
